import Mathlib

/-!
Shallow embedding of the `ez` realtime-synchronization library
(`ez.hpp` / `ez-extra.hpp`): the versioned value store `ez::value`,
the working-copy/publish layer `ez::sync`, the signal-gated
`ez::signalled_sync`, the edge latch `ez::trigger`, and the
turn-passing `ez::beach_ball`.

Machine state is modelled explicitly: each version slot of
`ez::value` is a cell holding an optional payload; shared-pointer
reference counts are represented by (a) one implicit container
reference per slot, (b) the writer pin `current_version` (an optional
slot index), and (c) a ghost count of outstanding reader handles per
slot.  `use_count(i) <= 1` (the C++ `is_garbage`) therefore holds
exactly when the pin is not on slot `i` and no reader handle is out.
-/

namespace Ez

/-- Decidable equality for `Except`, so that concrete runs of the
fallible beach-ball operations can be checked by `decide`. -/
instance {ε α : Type} [DecidableEq ε] [DecidableEq α] : DecidableEq (Except ε α) := fun a b =>
  match a, b with
  | .error e, .error f => decidable_of_iff (e = f) (by simp)
  | .error _, .ok _ => isFalse (by simp)
  | .ok _, .error _ => isFalse (by simp)
  | .ok x, .ok y => decidable_of_iff (x = y) (by simp)

/-- State of one `ez::value<T>`: `writer_value` is `writer_value_`,
`versions` holds the payload (`std::optional<T>`) of each slot of the
`versions_` deque, `dead_flags` mirrors `dead_flags_`, `current_version`
is the slot index pinned by the `current_version_` member (none before
the first `modify`, when it still points at its own private cell),
`current_version_ptr` is the atomically published pointer (none =
`nullptr`), and `reader_counts i` counts reader handles on slot `i`. -/
structure Value (T : Type) where
  writer_value : T
  versions : List (Option T)
  dead_flags : List Bool
  current_version : Option Nat
  current_version_ptr : Option Nat
  reader_counts : List Nat
deriving DecidableEq

/-- Index of the first `true` in a list of dead flags
(the scan loop in `value::get_empty_version`). -/
def firstDead : List Bool → Option Nat
  | [] => none
  | b :: bs => if b then some 0 else (firstDead bs).map (fun i => i + 1)

/-- Map over a list with the element index, starting at `k`. -/
def mapIdxFrom (f : Nat → α → α) : Nat → List α → List α
  | _, [] => []
  | k, a :: as => f k a :: mapIdxFrom f (k + 1) as

namespace Value

variable {T : Type}

/-- A freshly constructed `ez::value<T>` whose default-constructed
`writer_value_` is `d`: no slots, null published pointer, and the
private `current_version_` pin on no slot. -/
def init (d : T) : Value T :=
  { writer_value := d, versions := [], dead_flags := [],
    current_version := none, current_version_ptr := none, reader_counts := [] }

/-- Embeds `value::get_empty_version`: return the first dead slot index, or
append a fresh empty slot at the tail (marked dead) and return its index. -/
def get_empty_version (s : Value T) : Nat × Value T :=
  match firstDead s.dead_flags with
  | some i => (i, s)
  | none =>
      (s.versions.length,
        { s with versions := s.versions ++ [none],
                 dead_flags := s.dead_flags ++ [true],
                 reader_counts := s.reader_counts ++ [0] })

/-- Embeds `value::modify`: compute the new payload from the previous writer
value, find (or grow) an empty slot, repoint the writer pin at it,
store the payload, mark the slot alive, and publish the pointer. -/
def modify (f : T → T) (s : Value T) : Value T :=
  let nv := f s.writer_value
  let p := get_empty_version { s with writer_value := nv }
  { p.2 with current_version := some p.1,
             versions := p.2.versions.set p.1 (some nv),
             dead_flags := p.2.dead_flags.set p.1 false,
             current_version_ptr := some p.1 }

/-- Embeds `value::set`: `modify` discarding the previous value. -/
def set (v : T) (s : Value T) : Value T :=
  modify (fun _ => v) s

/-- Embeds `version::is_garbage`: `use_count() <= 1`, i.e. only the container
itself still references the slot: the writer pin is elsewhere and no
reader handle is outstanding. -/
def is_garbage (s : Value T) (i : Nat) : Bool :=
  !(decide (s.current_version = some i)) && decide (s.reader_counts.getD i 0 = 0)

/-- Embeds `value::garbage_collect`: for every alive slot that is garbage,
destroy the payload and mark the slot dead. -/
def garbage_collect (s : Value T) : Value T :=
  { s with
    versions := mapIdxFrom
      (fun i p => if !(s.dead_flags.getD i true) && s.is_garbage i then none else p)
      0 s.versions,
    dead_flags := mapIdxFrom
      (fun i d => if !d && s.is_garbage i then true else d)
      0 s.dead_flags }

/-- Embeds `value::read`: load `current_version_ptr_`; on `nullptr` the read
dereferences null (modelled as `none`), otherwise a reader handle on
that slot is acquired (its refcount rises by one). -/
def read (s : Value T) : Option (Nat × Value T) :=
  match s.current_version_ptr with
  | none => none
  | some i =>
      some (i, { s with reader_counts := s.reader_counts.set i (s.reader_counts.getD i 0 + 1) })

/-- Dereference a reader handle on slot `i`: the payload currently in
that slot (`none` models dereferencing an empty optional). -/
def deref (s : Value T) (i : Nat) : Option T :=
  s.versions.getD i none

/-- Destroying a reader handle on slot `i` drops that slot's refcount. -/
def drop_reader (s : Value T) (i : Nat) : Value T :=
  { s with reader_counts := s.reader_counts.set i (s.reader_counts.getD i 0 - 1) }

/-- Parallel-list well-formedness of a `Value` state. -/
def WF (s : Value T) : Prop :=
  s.dead_flags.length = s.versions.length ∧ s.reader_counts.length = s.versions.length

instance (s : Value T) : Decidable (WF s) := by unfold WF; infer_instance

end Value

/-- State of one `ez::sync<T>`: the writer-private `working_value_`,
the underlying `ez::value` `published_value_`, and the
`unread_value_` flag. -/
structure Sync (T : Type) where
  working_value : T
  published_value : Value T
  unread_value : Bool
deriving DecidableEq

namespace Sync

variable {T : Type}

/-- Embeds `sync::publish`: install the working value into the underlying
`ez::value` and set the unread flag. -/
def publish (s : Sync T) : Sync T :=
  { s with published_value := s.published_value.set s.working_value,
           unread_value := true }

/-- A freshly constructed `ez::sync<T>` whose default-constructed `T`
is `d`: the constructor publishes the default working value once. -/
def init (d : T) : Sync T :=
  publish { working_value := d, published_value := Value.init d, unread_value := true }

/-- Embeds `sync::read(ez::nort)`: copy of the working value under the mutex. -/
def read_nort (s : Sync T) : T := s.working_value

/-- Embeds `sync::set`: replace the working value (no publish). -/
def set (v : T) (s : Sync T) : Sync T := { s with working_value := v }

/-- Embeds `sync::update`: mutate the working value (no publish). -/
def update (f : T → T) (s : Sync T) : Sync T :=
  { s with working_value := f s.working_value }

/-- Embeds `sync::set_publish`. -/
def set_publish (v : T) (s : Sync T) : Sync T := (s.set v).publish

/-- Embeds `sync::update_publish`. -/
def update_publish (f : T → T) (s : Sync T) : Sync T := (s.update f).publish

/-- Embeds `sync::gc`. -/
def gc (s : Sync T) : Sync T :=
  { s with published_value := s.published_value.garbage_collect }

/-- Embeds `sync::read(ez::rt)`, handle form: acquire a reader handle (slot
index) from the underlying `ez::value` and clear the unread flag;
`none` models the null-pointer dereference before any publish. -/
def read_rt_h (s : Sync T) : Option Nat × Sync T :=
  match s.published_value.read with
  | none => (none, { s with unread_value := false })
  | some (i, v) => (some i, { s with published_value := v, unread_value := false })

/-- Embeds `sync::read(ez::rt)`, payload form: the value the returned handle
dereferences to. -/
def read_rt (s : Sync T) : Option T × Sync T :=
  match s.read_rt_h with
  | (none, s1) => (none, s1)
  | (some i, s1) => (s1.published_value.deref i, s1)

/-- Embeds `sync::is_unread`. -/
def is_unread (s : Sync T) : Bool := s.unread_value

end Sync

/-- Embeds `ez::sync_signal`: a monotonic `uint64_t` counter starting at 1;
`increment` wraps modulo `2 ^ 64`. -/
def sync_signal_init : Nat := 1

/-- Embeds `sync_signal::increment`. -/
def sync_signal_increment (v : Nat) : Nat := (v + 1) % 2 ^ 64

/-- State of one `ez::signalled_sync<T>` (apart from the shared
`sync_signal`, passed to `read` as a plain value): the base `sync`
cell, `local_signal_value_`, and the cached `signalled_value_` handle,
modelled as the slot index it pins (`none` = the default-constructed
null handle). -/
structure SignalledSync (T : Type) where
  cell : Sync T
  local_signal_value : Nat
  signalled_value : Option Nat
deriving DecidableEq

namespace SignalledSync

variable {T : Type}

/-- A freshly constructed `ez::signalled_sync<T>` with default `d`. -/
def init (d : T) : SignalledSync T :=
  { cell := Sync.init d, local_signal_value := 0, signalled_value := none }

/-- Payload the cached `signalled_value_` handle dereferences to. -/
def deref (s : SignalledSync T) : Option T :=
  s.signalled_value.bind (fun i => s.cell.published_value.deref i)

/-- Embeds `signalled_sync::read(ez::rt)` given the current signal value: if
the signal advanced past the local copy, refresh the cached handle
from the base cell (acquiring the new slot and dropping the old one),
else return the cached handle unchanged. -/
def read (sig : Nat) (s : SignalledSync T) : Option T × SignalledSync T :=
  if s.local_signal_value < sig then
    let r := s.cell.read_rt_h
    let cell1 :=
      match s.signalled_value with
      | some j => { r.2 with published_value := r.2.published_value.drop_reader j }
      | none => r.2
    let s1 : SignalledSync T :=
      { cell := cell1, local_signal_value := sig, signalled_value := r.1 }
    (s1.deref, s1)
  else
    (s.deref, s)

/-- Embeds `signalled_sync::set_publish` (inherited from `sync`). -/
def set_publish (v : T) (s : SignalledSync T) : SignalledSync T :=
  { s with cell := s.cell.set_publish v }

end SignalledSync

/-- Combined state of one `ez::beach_ball` and its players:
`thrown_to` is the shared atomic (`-1` = held, not in flight), and
`players` holds each `beach_ball_player`'s local `have_ball_` flag. -/
structure BeachBall where
  thrown_to : Int
  players : List Bool
deriving DecidableEq

namespace BeachBall

/-- A `beach_ball` with `n` players, thrown to `first_catcher`;
every player's local `have_ball_` starts false. -/
def init (n first_catcher : Nat) : BeachBall :=
  { thrown_to := first_catcher, players := List.replicate n false }

/-- Embeds `beach_ball_player::catch_ball` for player `p`: throws
`std::logic_error` if we already have the ball; otherwise
compare-exchange `thrown_to_` from `p` to `-1`; on success set the
local flag and return true, on failure change nothing. -/
def catch_ball (s : BeachBall) (p : Nat) : Except String (BeachBall × Bool) :=
  if s.players.getD p false then
    Except.error "Tried to catch ball but we already have it!"
  else if s.thrown_to = (p : Int) then
    Except.ok ({ thrown_to := -1, players := s.players.set p true }, true)
  else
    Except.ok (s, false)

/-- Embeds `beach_ball_player::throw_to` for player `p` throwing to `t`:
throws `std::logic_error` if we do not have the ball; otherwise clear
the local flag and store `t` into `thrown_to_`. -/
def throw_to (s : BeachBall) (p t : Nat) : Except String BeachBall :=
  if s.players.getD p false then
    Except.ok { thrown_to := t, players := s.players.set p false }
  else
    Except.error "Tried to throw ball but we do not have it!"

/-- One successful operation of some player (errors leave the state
unchanged, so they need no transition). -/
inductive Step : BeachBall → BeachBall → Prop
  | caught (p : Nat) (s s1 : BeachBall) (b : Bool)
      (h : catch_ball s p = Except.ok (s1, b)) : Step s s1
  | threw (p t : Nat) (s s1 : BeachBall)
      (h : throw_to s p t = Except.ok s1) : Step s s1

/-- States reachable from the initial ball by player operations. -/
def Reachable (n c : Nat) (s : BeachBall) : Prop :=
  Relation.ReflTransGen Step (init n c) s

end BeachBall

/-- Embeds `ez::trigger` state: the single `std::atomic_flag`.  The
constructor leaves the flag set. -/
def trigger_init : Bool := true

/-- Embeds `trigger::operator()` (fire): clear the flag. -/
def trigger_fire (_s : Bool) : Bool := false

/-- Embeds `trigger::operator bool`: `test_and_set` and report the negation of
the previous value; first component is the returned bool, second the
flag afterwards (always set). -/
def trigger_conv (s : Bool) : Bool × Bool := (!s, true)

/-- The flag state after a bool conversion. -/
def trigger_conv_state (s : Bool) : Bool := (trigger_conv s).2

/-! ### Helper lemmas -/

theorem mapIdxFrom_length (f : Nat → α → α) (k : Nat) (l : List α) :
    (mapIdxFrom f k l).length = l.length := by
  induction l generalizing k with
  | nil => rfl
  | cons a as ih => simp [mapIdxFrom, ih]

theorem mapIdxFrom_getElem? (f : Nat → α → α) (k : Nat) (l : List α) (i : Nat) :
    (mapIdxFrom f k l)[i]? = (l[i]?).map (f (k + i)) := by
  induction l generalizing k i with
  | nil => simp [mapIdxFrom]
  | cons a as ih =>
    cases i with
    | zero => simp [mapIdxFrom]
    | succ j =>
      have h2 : k + 1 + j = k + (j + 1) := by omega
      simp [mapIdxFrom, ih (k + 1) j, h2]

theorem mapIdxFrom_getD (f : Nat → α → α) (l : List α) (i : Nat) (d : α)
    (h : i < l.length) :
    (mapIdxFrom f 0 l).getD i d = f i (l.getD i d) := by
  have h1 : l[i]? = some l[i] := List.getElem?_eq_getElem h
  have h2 : l.getD i d = l[i] := List.getD_eq_getElem l d h
  rw [List.getD_eq_getElem?_getD, mapIdxFrom_getElem?, h1, h2]
  simp

theorem getD_set_eq (l : List α) (i : Nat) (a d : α) (h : i < l.length) :
    (l.set i a).getD i d = a := by
  rw [List.getD_eq_getElem?_getD, List.getElem?_set_eq_of_lt a h]
  rfl

theorem getD_set_ne (l : List α) (i j : Nat) (a d : α) (h : i ≠ j) :
    (l.set i a).getD j d = l.getD j d := by
  rw [List.getD_eq_getElem?_getD, List.getD_eq_getElem?_getD,
    List.getElem?_set_ne h]

theorem getD_append_default (l : List α) (d : α) (i : Nat) :
    (l ++ [d]).getD i d = l.getD i d := by
  rcases Nat.lt_or_ge i l.length with h | h
  · exact List.getD_append _ _ _ _ h
  · rw [List.getD_append_right _ _ _ _ h, List.getD_eq_default _ _ h]
    rcases Nat.lt_or_ge (i - l.length) 1 with h1 | h1
    · have h0 : i - l.length = 0 := Nat.lt_one_iff.mp h1
      rw [h0]
      rfl
    · rw [List.getD_eq_default]
      simpa using h1

theorem getD_default_of_ge (l : List α) (d : α) (i : Nat) (h : l.length ≤ i) :
    l.getD i d = d :=
  List.getD_eq_default _ _ h

theorem firstDead_lt (l : List Bool) (i : Nat) (h : firstDead l = some i) :
    i < l.length := by
  induction l generalizing i with
  | nil => simp [firstDead] at h
  | cons b bs ih =>
    by_cases hb : b
    · simp [firstDead, hb] at h
      simp [List.length_cons]
      omega
    · simp [firstDead, hb] at h
      obtain ⟨j, hj, hij⟩ := h
      have := ih j hj
      simp [List.length_cons]
      omega

theorem firstDead_getD (l : List Bool) (i : Nat) (h : firstDead l = some i) :
    l.getD i false = true := by
  induction l generalizing i with
  | nil => simp [firstDead] at h
  | cons b bs ih =>
    by_cases hb : b
    · simp [firstDead, hb] at h
      subst h
      simpa using hb
    · simp [firstDead, hb] at h
      obtain ⟨j, hj, hij⟩ := h
      subst hij
      simpa using ih j hj

theorem get_empty_version_spec {T : Type} (s : Value T) (hwf : Value.WF s) :
    Value.WF (Value.get_empty_version s).2 ∧
    (Value.get_empty_version s).1 < (Value.get_empty_version s).2.versions.length ∧
    (Value.get_empty_version s).2.current_version = s.current_version ∧
    (Value.get_empty_version s).2.current_version_ptr = s.current_version_ptr ∧
    (Value.get_empty_version s).2.writer_value = s.writer_value ∧
    (∀ j, (Value.get_empty_version s).2.reader_counts.getD j 0 = s.reader_counts.getD j 0) := by
  obtain ⟨hd, hr⟩ := hwf
  cases h : firstDead s.dead_flags with
  | some i =>
    have hi : i < s.dead_flags.length := firstDead_lt _ _ h
    simp [Value.get_empty_version, h, Value.WF, hd, hr]
    omega
  | none =>
    simp [Value.get_empty_version, h, Value.WF, hd, hr]
    intro j
    rw [← List.getD_eq_getElem?_getD, ← List.getD_eq_getElem?_getD]
    exact getD_append_default s.reader_counts 0 j

theorem modify_spec {T : Type} (s : Value T) (f : T → T) (hwf : Value.WF s) :
    ∃ c, (Value.modify f s).current_version_ptr = some c ∧
      (Value.modify f s).current_version = some c ∧
      Value.WF (Value.modify f s) ∧
      c < (Value.modify f s).versions.length ∧
      (Value.modify f s).dead_flags.getD c true = false ∧
      (Value.modify f s).versions.getD c none = some (f s.writer_value) ∧
      (∀ j, (Value.modify f s).reader_counts.getD j 0 = s.reader_counts.getD j 0) := by
  have hwf0 : Value.WF { s with writer_value := f s.writer_value } := hwf
  obtain ⟨hwf1, hlt, -, -, hw, hrd⟩ :=
    get_empty_version_spec { s with writer_value := f s.writer_value } hwf0
  obtain ⟨hd1, hr1⟩ := hwf1
  refine ⟨(Value.get_empty_version { s with writer_value := f s.writer_value }).1,
    rfl, rfl, ?_, ?_, ?_, ?_, ?_⟩
  · constructor <;> simp [Value.modify, hd1, hr1]
  · simp [Value.modify]
    exact hlt
  · simp only [Value.modify]
    exact getD_set_eq _ _ _ _ (by omega)
  · simp only [Value.modify, hw]
    exact getD_set_eq _ _ _ _ hlt
  · intro j
    simp only [Value.modify]
    exact hrd j

/-- C1: after any publish (`modify`/`set`) on an `ez::value`, if no
reader holds a handle to any slot other than the currently published
one `c`, a single `garbage_collect` clears every other non-dead slot
(payload destroyed, dead flag set) and leaves exactly one LIVE slot —
`c` itself, whose payload survives because the writer pin keeps its
refcount at least 2. -/
theorem value_gc_after_publish (T : Type) (s : Value T) (f : T → T) (c : Nat)
    (hwf : Value.WF s)
    (hc : (Value.modify f s).current_version_ptr = some c)
    (hr : ∀ i, i ≠ c → (Value.modify f s).reader_counts.getD i 0 = 0) :
    c < (Value.garbage_collect (Value.modify f s)).dead_flags.length ∧
    (∀ i, i < (Value.garbage_collect (Value.modify f s)).dead_flags.length →
      ((Value.garbage_collect (Value.modify f s)).dead_flags.getD i true = false ↔ i = c)) ∧
    (Value.garbage_collect (Value.modify f s)).versions.getD c none = some (f s.writer_value) ∧
    (∀ i, i ≠ c → (Value.modify f s).dead_flags.getD i true = false →
      (Value.garbage_collect (Value.modify f s)).versions.getD i none = none ∧
      (Value.garbage_collect (Value.modify f s)).dead_flags.getD i true = true) := by
  obtain ⟨c', hc', hpin, hwf', hlt, hdead, hvers, -⟩ := modify_spec s f hwf
  have hcc : c' = c := by
    rw [hc'] at hc
    exact Option.some.inj hc
  rw [hcc] at hc' hpin hlt hdead hvers
  set s' := Value.modify f s with hs'
  obtain ⟨hd1, hr1⟩ := hwf'
  have hgdlen : (s'.garbage_collect).dead_flags.length = s'.dead_flags.length := by
    simp [Value.garbage_collect, mapIdxFrom_length]
  have hgarb_c : s'.is_garbage c = false := by
    simp [Value.is_garbage, hpin]
  have hgarb_ne : ∀ i, i ≠ c → s'.is_garbage i = true := by
    intro i hi
    have h1 : ¬ (s'.current_version = some i) := by
      rw [hpin]
      intro hx
      exact hi (Option.some.inj hx).symm
    have h2 := hr i hi
    simp [Value.is_garbage, h1]
    rw [← List.getD_eq_getElem?_getD]
    exact h2
  have hdead_getD : ∀ i, i < s'.dead_flags.length →
      (s'.garbage_collect).dead_flags.getD i true =
        (if !(s'.dead_flags.getD i true) && s'.is_garbage i then true
         else s'.dead_flags.getD i true) := by
    intro i hi
    simp only [Value.garbage_collect]
    exact mapIdxFrom_getD _ _ _ _ hi
  refine ⟨?_, ?_, ?_, ?_⟩
  · rw [hgdlen]
    omega
  · intro i hi
    rw [hgdlen] at hi
    rw [hdead_getD i hi]
    by_cases hic : i = c
    · subst hic
      rw [hdead, hgarb_c]
      simp
    · rw [hgarb_ne i hic]
      cases hd : s'.dead_flags.getD i true <;> simp [hic]
  · have hcv : c < s'.versions.length := hlt
    simp only [Value.garbage_collect]
    rw [mapIdxFrom_getD _ _ _ _ hcv, hgarb_c]
    simpa using hvers
  · intro i hic hidead
    have hilen : i < s'.dead_flags.length := by
      rcases Nat.lt_or_ge i s'.dead_flags.length with h | h
      · exact h
      · rw [getD_default_of_ge _ _ _ h] at hidead
        simp at hidead
    constructor
    · have hiv : i < s'.versions.length := by omega
      simp only [Value.garbage_collect]
      rw [mapIdxFrom_getD _ _ _ _ hiv, hidead, hgarb_ne i hic]
      simp
    · rw [hdead_getD i hilen, hidead, hgarb_ne i hic]
      simp

/-- C1 witness: concrete run on `ez::value<int>` — publish 1 then
publish 2 with no readers; the published slot is slot 1 and its
payload survives collection. -/
theorem value_gc_after_publish_witness :
    (Value.garbage_collect (Value.modify (fun _ => 2) (Value.set 1 (Value.init (0 : ℕ))))).versions.getD
      1 none = some 2 :=
  (value_gc_after_publish ℕ (Value.set 1 (Value.init 0)) (fun _ => 2) 1 (by decide) (by decide)
    (by
      intro i hi
      match i with
      | 0 => rfl
      | 1 => exact absurd rfl hi
      | (n + 2) => rfl)).2.2.1

/-- C2: a newly constructed `ez::sync<T>` has published its
default-constructed working value exactly once: `is_unread` is true
immediately after construction, `read(ez::rt)` returns a handle whose
payload is the default value, and `is_unread` is false afterwards. -/
theorem sync_default_publish (T : Type) (d : T) :
    Sync.is_unread (Sync.init d) = true ∧
    (Sync.read_rt (Sync.init d)).1 = some d ∧
    Sync.is_unread ((Sync.read_rt (Sync.init d)).2) = false :=
  ⟨rfl, rfl, rfl⟩

/-- C4: mutating the working value without publishing leaves the
realtime-visible published value unchanged: after `set_publish(42)`,
`read(ez::rt)` returns 42; after a further `set(99)` with no publish,
`read(ez::rt)` still returns 42 while `read(ez::nort)` returns 99. -/
theorem sync_set_without_publish_invisible :
    (Sync.read_rt (Sync.set_publish 42 (Sync.init (0 : ℤ)))).1 = some 42 ∧
    (Sync.read_rt
      (Sync.set 99 ((Sync.read_rt (Sync.set_publish 42 (Sync.init (0 : ℤ)))).2))).1 = some 42 ∧
    Sync.read_nort
      (Sync.set 99 ((Sync.read_rt (Sync.set_publish 42 (Sync.init (0 : ℤ)))).2)) = 99 := by
  decide

/-- C5: `modify` appends a fresh slot at the tail exactly when no dead
slot exists, the slot collection never shrinks (neither on `modify`
nor on `garbage_collect`), and consequently the concrete run
`set 1; set 2; garbage_collect; set 3` on `ez::value<int>` stores
publish 3 in the same slot (index 0) that backed publish 1. -/
theorem value_growth_policy (T : Type) (s : Value T) (f : T → T) :
    s.versions.length ≤ (Value.modify f s).versions.length ∧
    (Value.garbage_collect s).versions.length = s.versions.length ∧
    (Value.modify f s).versions.length =
      (if firstDead s.dead_flags = none then s.versions.length + 1 else s.versions.length) ∧
    (Value.modify f s).current_version_ptr =
      some ((firstDead s.dead_flags).getD s.versions.length) ∧
    (Value.set 1 (Value.init (0 : ℕ))).current_version_ptr = some 0 ∧
    (Value.set 3 (Value.garbage_collect
      (Value.set 2 (Value.set 1 (Value.init (0 : ℕ)))))).current_version_ptr = some 0 ∧
    (Value.set 3 (Value.garbage_collect
      (Value.set 2 (Value.set 1 (Value.init (0 : ℕ)))))).versions.getD 0 none = some 3 ∧
    (Value.set 3 (Value.garbage_collect
      (Value.set 2 (Value.set 1 (Value.init (0 : ℕ)))))).versions.length = 2 := by
  have hgc : (Value.garbage_collect s).versions.length = s.versions.length := by
    simp [Value.garbage_collect, mapIdxFrom_length]
  have hmod : (Value.modify f s).versions.length =
      (if firstDead s.dead_flags = none then s.versions.length + 1 else s.versions.length) ∧
      (Value.modify f s).current_version_ptr =
        some ((firstDead s.dead_flags).getD s.versions.length) := by
    cases h : firstDead s.dead_flags with
    | some i => simp [Value.modify, Value.get_empty_version, h]
    | none => simp [Value.modify, Value.get_empty_version, h]
  refine ⟨?_, hgc, hmod.1, hmod.2, by decide, by decide, by decide, by decide⟩
  rw [hmod.1]
  split <;> omega

/-- C9: the published-version pointer of an `ez::value` starts null
and is assigned (to a non-null slot pointer) only inside `modify`;
`read` dereferences null exactly when no publish has occurred, and
`ez::sync` establishes the publish precondition in its constructor. -/
theorem value_read_requires_publish (T : Type) (d : T) (f : T → T) (s : Value T) (i : Nat) :
    (Value.init d).current_version_ptr = none ∧
    Value.read (Value.init d) = none ∧
    (Value.read s = none ↔ s.current_version_ptr = none) ∧
    (Value.garbage_collect s).current_version_ptr = s.current_version_ptr ∧
    ((Value.read s).elim s.current_version_ptr (fun p => p.2.current_version_ptr)) =
      s.current_version_ptr ∧
    (Value.drop_reader s i).current_version_ptr = s.current_version_ptr ∧
    (Value.modify f s).current_version_ptr =
      some ((firstDead s.dead_flags).getD s.versions.length) ∧
    (Sync.init d).published_value.current_version_ptr = some 0 ∧
    (Sync.read_rt (Sync.init d)).1 = some d := by
  refine ⟨rfl, rfl, ?_, rfl, ?_, rfl, ?_, rfl, rfl⟩
  · cases h : s.current_version_ptr <;> simp [Value.read, h]
  · cases h : s.current_version_ptr <;> simp [Value.read, h]
  · cases h : firstDead s.dead_flags <;>
      simp [Value.modify, Value.get_empty_version, h]

/-- C3: `signalled_sync::read(ez::rt)` is idempotent while the frame
signal is unchanged — if the signal has not advanced past the local
last-seen value, `read` returns the cached handle and changes nothing,
even if a new value was published in between — and after an increment
the next `read` returns the most recent publish.  Concretely:
`set_publish(1)`, read (signal 1) returns 1; `set_publish(2)` without
incrementing, read still returns 1; `increment()`, read returns 2. -/
theorem signalled_sync_frame_stability (T : Type) (s : SignalledSync T) (sig : Nat)
    (h : ¬ s.local_signal_value < sig) :
    SignalledSync.read sig s = (s.deref, s) ∧
    (SignalledSync.read 1 (SignalledSync.set_publish 1 (SignalledSync.init (0 : ℕ)))).1 =
      some 1 ∧
    (SignalledSync.read 1 (SignalledSync.set_publish 2
      (SignalledSync.read 1 (SignalledSync.set_publish 1
        (SignalledSync.init (0 : ℕ)))).2)).1 = some 1 ∧
    (SignalledSync.read (sync_signal_increment 1)
      (SignalledSync.read 1 (SignalledSync.set_publish 2
        (SignalledSync.read 1 (SignalledSync.set_publish 1
          (SignalledSync.init (0 : ℕ)))).2)).2).1 = some 2 := by
  refine ⟨?_, by decide, by decide, by decide⟩
  simp [SignalledSync.read, h]

/-- C3 witness: instantiate the stability law at signal value 0 on a
freshly constructed cell (local last-seen value 0). -/
theorem signalled_sync_frame_stability_witness :
    SignalledSync.read 0 (SignalledSync.init (0 : ℕ)) =
      ((SignalledSync.init (0 : ℕ)).deref, SignalledSync.init (0 : ℕ)) :=
  (signalled_sync_frame_stability ℕ (SignalledSync.init 0) 0 (by decide)).1

/-- C6: for a participant `p` not holding the ball, `catch_ball`
succeeds iff the shared `thrown_to_` equals `p`; on success the holder
becomes −1 and `p`'s local flag becomes true; on failure nothing
changes.  In the two-party ball with first catcher 0: player 1 fails,
player 0 succeeds; after 0 throws to 1, player 0 fails and player 1
succeeds. -/
theorem beach_ball_catch_spec (s : BeachBall) (p : Nat)
    (hp : s.players.getD p false = false) (hlen : p < s.players.length) :
    BeachBall.catch_ball s p =
      (if s.thrown_to = (p : Int)
       then Except.ok ({ thrown_to := -1, players := s.players.set p true }, true)
       else Except.ok (s, false)) ∧
    (s.players.set p true).getD p false = true ∧
    BeachBall.catch_ball (BeachBall.init 2 0) 1 = Except.ok (BeachBall.init 2 0, false) ∧
    BeachBall.catch_ball (BeachBall.init 2 0) 0 =
      Except.ok ({ thrown_to := -1, players := [true, false] }, true) ∧
    BeachBall.throw_to { thrown_to := -1, players := [true, false] } 0 1 =
      Except.ok { thrown_to := 1, players := [false, false] } ∧
    BeachBall.catch_ball { thrown_to := 1, players := [false, false] } 0 =
      Except.ok ({ thrown_to := 1, players := [false, false] }, false) ∧
    BeachBall.catch_ball { thrown_to := 1, players := [false, false] } 1 =
      Except.ok ({ thrown_to := -1, players := [false, true] }, true) := by
  refine ⟨?_, ?_, by decide, by decide, by decide, by decide, by decide⟩
  · rw [List.getD_eq_getElem?_getD] at hp
    simp [BeachBall.catch_ball, hp]
  · exact getD_set_eq _ _ _ _ hlen

/-- C6 witness: instantiate at the two-party ball's player 0, which
does not hold the ball and has index below the player count. -/
theorem beach_ball_catch_spec_witness :
    BeachBall.catch_ball (BeachBall.init 2 0) 0 =
      (if (BeachBall.init 2 0).thrown_to = ((0 : Nat) : Int)
       then Except.ok
         ({ thrown_to := -1, players := (BeachBall.init 2 0).players.set 0 true }, true)
       else Except.ok (BeachBall.init 2 0, false)) :=
  (beach_ball_catch_spec (BeachBall.init 2 0) 0 (by decide) (by decide)).1

/-- C8 counterexample: the claim says these contract violations are
detected only in debug builds, are undefined in release, and have no
error channel; but the code unconditionally throws `std::logic_error`
— a defined error channel in every build — for a throw without the
ball and a catch while holding it. -/
theorem beach_ball_error_counterexample :
    BeachBall.throw_to (BeachBall.init 2 0) 0 1 =
      Except.error "Tried to throw ball but we do not have it!" ∧
    BeachBall.catch_ball { thrown_to := -1, players := [true, false] } 0 =
      Except.error "Tried to catch ball but we already have it!" := by
  decide

/-- C8 (amended): throwing without holding the ball and catching while
already holding it are contract violations that the code detects in
every build by throwing `std::logic_error`, leaving the shared state
unchanged; the exception is the only error channel. -/
theorem beach_ball_error_spec (s : BeachBall) (p q t : Nat)
    (hp : s.players.getD p false = false)
    (hq : s.players.getD q false = true) :
    BeachBall.throw_to s p t = Except.error "Tried to throw ball but we do not have it!" ∧
    BeachBall.catch_ball s q = Except.error "Tried to catch ball but we already have it!" := by
  rw [List.getD_eq_getElem?_getD] at hp hq
  constructor
  · simp [BeachBall.throw_to, hp]
  · simp [BeachBall.catch_ball, hq]

/-- C8 witness: in the state where player 0 holds the ball, player 1's
throw attempt and player 0's catch attempt both raise the exception. -/
theorem beach_ball_error_spec_witness :
    BeachBall.throw_to { thrown_to := -1, players := [true, false] } 1 0 =
      Except.error "Tried to throw ball but we do not have it!" ∧
    BeachBall.catch_ball { thrown_to := -1, players := [true, false] } 0 =
      Except.error "Tried to catch ball but we already have it!" :=
  beach_ball_error_spec { thrown_to := -1, players := [true, false] } 1 0 0
    (by decide) (by decide)

/-- C10: `trigger::fire` arms the latch and the bool conversion
reports-and-clears it: a fresh trigger converts to false; after a
single `fire`, the first conversion returns true and every further
conversion returns false until `fire` is called again. -/
theorem trigger_latch_spec :
    (trigger_conv trigger_init).1 = false ∧
    ∀ (s : Bool) (n : Nat),
      (trigger_conv (trigger_fire s)).1 = true ∧
      (trigger_conv (trigger_conv_state^[n + 1] (trigger_fire s))).1 = false := by
  refine ⟨rfl, fun s n => ⟨rfl, ?_⟩⟩
  have h : trigger_conv_state^[n + 1] (trigger_fire s) = true := by
    rw [Function.iterate_succ_apply']
    rfl
  rw [h]
  rfl

/-- Number of players whose local `have_ball_` flag is set. -/
def countTrue : List Bool → Nat
  | [] => 0
  | b :: bs => (if b then 1 else 0) + countTrue bs

theorem countTrue_replicate_false (n : Nat) :
    countTrue (List.replicate n false) = 0 := by
  induction n with
  | zero => rfl
  | succ m ih => simp [List.replicate, countTrue, ih]

theorem countTrue_set_true_le (l : List Bool) (p : Nat) (h : countTrue l = 0) :
    countTrue (l.set p true) ≤ 1 := by
  induction l generalizing p with
  | nil => simp [countTrue]
  | cons b bs ih =>
    have hb : b = false := by
      cases b
      · rfl
      · simp [countTrue] at h
    subst hb
    simp only [countTrue, if_neg Bool.false_ne_true, Nat.zero_add] at h
    cases p with
    | zero => simp [List.set, countTrue, h]
    | succ q =>
      simp only [List.set, countTrue, if_neg Bool.false_ne_true, Nat.zero_add]
      exact ih q h

theorem countTrue_set_false (l : List Bool) (p : Nat) (h : l.getD p false = true) :
    countTrue (l.set p false) + 1 = countTrue l := by
  induction l generalizing p with
  | nil => simp [List.getD] at h
  | cons b bs ih =>
    cases p with
    | zero =>
      have hb : b = true := by simpa using h
      subst hb
      simp [List.set, countTrue]
      omega
    | succ q =>
      have hq : bs.getD q false = true := by simpa using h
      simp only [List.set, countTrue]
      have := ih q hq
      omega

/-- The inductive invariant of the beach ball: at most one player
holds the ball locally, and while the ball is in flight
(`thrown_to_ >= 0`) nobody holds it. -/
def BallInv (s : BeachBall) : Prop :=
  countTrue s.players ≤ 1 ∧ (0 ≤ s.thrown_to → countTrue s.players = 0)

theorem ballInv_init (n c : Nat) : BallInv (BeachBall.init n c) := by
  constructor <;> simp [BeachBall.init, countTrue_replicate_false]

theorem ballInv_step (s s1 : BeachBall) (hst : BeachBall.Step s s1)
    (hs : BallInv s) : BallInv s1 := by
  obtain ⟨h1, h2⟩ := hs
  cases hst with
  | caught p s s1 b hc =>
    unfold BeachBall.catch_ball at hc
    by_cases hp : s.players.getD p false = true
    · rw [if_pos hp] at hc
      cases hc
    · rw [if_neg hp] at hc
      by_cases ht : s.thrown_to = (p : Int)
      · rw [if_pos ht] at hc
        have hz : countTrue s.players = 0 := by
          apply h2
          rw [ht]
          exact Int.ofNat_nonneg p
        obtain ⟨hs1, -⟩ := Prod.mk.injEq .. ▸ (Except.ok.inj hc)
        rw [← hs1]
        constructor
        · exact countTrue_set_true_le _ _ hz
        · intro hge
          simp at hge
      · rw [if_neg ht] at hc
        obtain ⟨hs1, -⟩ := Prod.mk.injEq .. ▸ (Except.ok.inj hc)
        rw [← hs1]
        exact ⟨h1, h2⟩
  | threw p t s s1 hc =>
    unfold BeachBall.throw_to at hc
    by_cases hp : s.players.getD p false = true
    · rw [if_pos hp] at hc
      have hs1 := Except.ok.inj hc
      rw [← hs1]
      have hcnt := countTrue_set_false s.players p hp
      constructor
      · simp only
        omega
      · intro _
        simp only
        omega
    · rw [if_neg hp] at hc
      cases hc

/-- C7: in every state of an `ez::beach_ball` reachable by any
sequence of `catch_ball` / `throw_to` operations of its players, at
most one player's local `have_ball_` flag is true. -/
theorem beach_ball_turn_exclusivity (n c : Nat) (s : BeachBall)
    (h : BeachBall.Reachable n c s) : countTrue s.players ≤ 1 := by
  have hinv : BallInv s := by
    induction h with
    | refl => exact ballInv_init n c
    | tail _ hstep ih => exact ballInv_step _ _ hstep ih
  exact hinv.1

/-- C7 witness: the initial two-party ball is reachable (empty
sequence) and satisfies the exclusivity bound. -/
theorem beach_ball_turn_exclusivity_witness :
    countTrue (BeachBall.init 2 0).players ≤ 1 :=
  beach_ball_turn_exclusivity 2 0 (BeachBall.init 2 0) Relation.ReflTransGen.refl

end Ez
